import Mathlib

/-!
Verification of the f5 data-access layer (models.py, services.py, storage.py)
against its natural-language specification. The Python source is shallowly
embedded: records become a `Model` structure over ordered association lists
(mirroring Python dict insertion order), query builders become string
functions, and the cache protocols become explicit state-transition
functions.
-/

namespace F5

set_option maxRecDepth 4096

/-- Field values stored in a record (a restriction of Python values to the
shapes the data layer actually stores: integers, strings, booleans, and
opaque timestamps produced by datetime.now()). A Python `None` is modelled
as `Option.none` at the use sites, so a field holds an `Option Val`. -/
inductive Val where
  | int (n : Int)
  | str (s : String)
  | bool (b : Bool)
  | time (t : Nat)
  deriving DecidableEq, Repr

/-- Fields of a record: an insertion-ordered association list from column
name to value, mirroring a Python dict (keys unique, order preserved). -/
abbrev Fields := List (String × Option Val)

/-- Lookup of a key in a fields dict (`self.fields[key]`). Returns `none`
when the key is absent; `some v` when present with value `v` (which is
itself an `Option Val`, since a present field may hold Python `None`). -/
def getField : Fields → String → Option (Option Val)
  | [], _ => none
  | (k', v) :: fs, k => if k = k' then some v else getField fs k

/-- `key in self.fields` (Python dict membership). -/
def hasField (fs : Fields) (k : String) : Bool :=
  (getField fs k).isSome

/-- Python dict assignment `d[k] = v`: overwrite in place when the key is
present (keeping its position), append otherwise. (Dict keys are unique,
so replacing the first occurrence is the dict semantics.) -/
def dictSet : Fields → String × Option Val → Fields
  | [], kv => [kv]
  | p :: fs, kv => if p.1 = kv.1 then (kv.1, kv.2) :: fs else p :: dictSet fs kv

/-- Python `d.update(entries)`: sequential dict assignment. -/
def dictUpdate (fs : Fields) (entries : Fields) : Fields :=
  entries.foldl dictSet fs

/-- The change-tracking record of models.py (`class Model`). `columns` is
the class-level declared column list, `fields` the instance dict, `dirty`
the set of modified field names. -/
structure Model where
  columns : List String
  fields : Fields
  dirty : Finset String
  deriving DecidableEq

/-- `Model.__init__`: fill every declared column with `None`, then update
with the supplied entries whose keys are declared columns; `dirty` starts
empty. -/
def Model.init (columns : List String) (given : Fields) : Model :=
  { columns := columns
    fields := dictUpdate (columns.map (fun k => (k, (none : Option Val))))
      (given.filter (fun p => p.1 ∈ columns))
    dirty := ∅ }

/-- `Model.__setitem__`: fails for an undeclared column and for the
primary key; otherwise marks the key dirty and stores the value. -/
def Model.setItem (m : Model) (key : String) (v : Option Val) :
    Except String Model :=
  if key ∉ m.columns then
    .error "not a recognized database column"
  else if key = "id" then
    .error "cannot set id manually"
  else
    .ok { m with
      dirty := insert key m.dirty
      fields := dictSet m.fields (key, v) }

/-- `Model.__delitem__`: fails for an undeclared column; otherwise marks
the key dirty and stores `None`. (Note: no primary-key guard here.) -/
def Model.delItem (m : Model) (key : String) : Except String Model :=
  if key ∉ m.columns then
    .error "not a recognized database column"
  else
    .ok { m with
      dirty := insert key m.dirty
      fields := dictSet m.fields (key, none) }

/-- `Model.update(field_dict)`: keep only declared columns, update the
fields dict, and union the applied keys into `dirty`. (Note: no
primary-key guard here either.) -/
def Model.update (m : Model) (fieldDict : Fields) : Model :=
  let sanitized := fieldDict.filter (fun p => p.1 ∈ m.columns)
  { m with
    fields := dictUpdate m.fields sanitized
    dirty := m.dirty ∪ (sanitized.map (·.1)).toFinset }

/-- `Model.is_dirty` exactly as written in the source:
`return len(self.dirty) == 0`. -/
def Model.is_dirty (m : Model) : Bool :=
  m.dirty.card = 0

/-- The `id` property setter: assign `fields['id']` without touching
`dirty`. -/
def Model.setId (m : Model) (v : Option Val) : Model :=
  { m with fields := dictSet m.fields ("id", v) }

/-- `Model.modified_dict`: the fields restricted to the dirty keys. -/
def Model.modified_dict (m : Model) : Fields :=
  m.fields.filter (fun p => p.1 ∈ m.dirty)

/-- A record with columns id, name whose `name` field has been modified
through the public bulk-update operation. -/
def dirtyExample : Model :=
  (Model.init ["id", "name"] []).update [("name", some (.str "Eastern Bloc"))]

/-- One public mutation operation on a record: keyed set, keyed delete, or
bulk update. A raised KeyError leaves the record unchanged. -/
inductive MutOp where
  | set (k : String) (v : Option Val)
  | del (k : String)
  | upd (d : Fields)

/-- Apply one mutation; the exception branches of `__setitem__` and
`__delitem__` abort without modifying the record. -/
def applyOp (m : Model) : MutOp → Model
  | .set k v =>
    match m.setItem k v with
    | .ok m' => m'
    | .error _ => m
  | .del k =>
    match m.delItem k with
    | .ok m' => m'
    | .error _ => m
  | .upd d => m.update d

/-- Apply a sequence of public mutations. -/
def applyOps (m : Model) (ops : List MutOp) : Model :=
  ops.foldl applyOp m

def touchesId : MutOp → Bool
  | .set _ _ => false
  | .del k => k == "id"
  | .upd d => d.any (·.1 == "id")

theorem applyOp_id_not_dirty {m : Model} (hm : "id" ∉ m.dirty) {op : MutOp}
    (hop : touchesId op = false) : "id" ∉ (applyOp m op).dirty := by
  cases op with
  | set k v =>
    cases hEq : m.setItem k v with
    | error e => simpa only [applyOp, hEq] using hm
    | ok m' =>
      have hne : "id" ∉ m'.dirty := by
        unfold Model.setItem at hEq
        split_ifs at hEq with h1 h2
        simp only [Except.ok.injEq] at hEq
        subst hEq
        simp only [Finset.mem_insert]
        rintro (rfl | h3)
        · exact h2 rfl
        · exact hm h3
      simpa only [applyOp, hEq] using hne
  | del k =>
    simp only [touchesId, beq_eq_false_iff_ne, ne_eq] at hop
    cases hEq : m.delItem k with
    | error e => simpa only [applyOp, hEq] using hm
    | ok m' =>
      have hne : "id" ∉ m'.dirty := by
        unfold Model.delItem at hEq
        split_ifs at hEq with h1
        simp only [Except.ok.injEq] at hEq
        subst hEq
        simp only [Finset.mem_insert]
        rintro (rfl | h3)
        · exact hop rfl
        · exact hm h3
      simpa only [applyOp, hEq] using hne
  | upd d =>
    simp only [touchesId, List.any_eq_false, beq_iff_eq] at hop
    simp only [applyOp, Model.update, Finset.mem_union, List.mem_toFinset,
      List.mem_map]
    rintro (h2 | ⟨p, hp, hfst⟩)
    · exact hm h2
    · exact hop p (List.mem_of_mem_filter hp) hfst

theorem applyOps_id_not_dirty {m : Model} (hm : "id" ∉ m.dirty)
    {ops : List MutOp} (hops : ∀ op ∈ ops, touchesId op = false) :
    "id" ∉ (applyOps m ops).dirty := by
  induction ops generalizing m with
  | nil => exact hm
  | cons op rest ih =>
    exact ih (applyOp_id_not_dirty hm (hops op (List.mem_cons_self op rest)))
      (fun o ho => hops o (List.mem_cons_of_mem _ ho))

/-- C1 (code bug): the source's `is_dirty` is `len(self.dirty) == 0`,
inverted relative to its own docstring ("True if fields have been
modified since being marked clean") and to the spec. On a record whose
`name` field has been modified, the dirty set is non-empty yet `is_dirty`
returns false. -/
theorem is_dirty_false_on_modified_record :
    dirtyExample.dirty ≠ ∅ ∧ dirtyExample.is_dirty = false := by decide

/-- C2 counterexample: bulk update with a dict containing the primary key
puts "id" into the dirty set, so "id" is not excluded from `dirty` under
every sequence of public mutation operations. -/
theorem update_with_id_marks_id_dirty :
    "id" ∈ (applyOps (Model.init ["id", "name"] [])
      [.upd [("id", some (.int 5))]]).dirty := by decide

/-- C2 (amended): for every record constructed by `Model.init` and every
sequence of public mutations in which no keyed delete targets "id" and no
bulk update dict contains "id", the primary-key field "id" is never a
member of the dirty set (keyed set of "id" always fails and adds
nothing). -/
theorem id_not_dirty_without_id_delete_or_update (cols : List String)
    (given : Fields) (ops : List MutOp)
    (h : ∀ op ∈ ops, touchesId op = false) :
    "id" ∉ (applyOps (Model.init cols given) ops).dirty :=
  applyOps_id_not_dirty (by simp [Model.init]) h

/-- Witness for C2: a concrete mutation sequence (keyed set, keyed delete
and bulk update of "name") satisfying the hypothesis, with "id" indeed
not dirty afterwards. -/
theorem id_not_dirty_without_id_delete_or_update_witness :
    (∀ op ∈ [MutOp.set "name" (some (.str "x")), MutOp.del "name",
        MutOp.upd [("name", none)]], touchesId op = false) ∧
    "id" ∉ (applyOps (Model.init ["id", "name"] [])
      [MutOp.set "name" (some (.str "x")), MutOp.del "name",
        MutOp.upd [("name", none)]]).dirty :=
  ⟨by decide, id_not_dirty_without_id_delete_or_update _ _ _ (by decide)⟩

theorem keys_dictSet (fs : Fields) (kv : String × Option Val) :
    (dictSet fs kv).map (·.1) =
      if kv.1 ∈ fs.map (·.1) then fs.map (·.1) else fs.map (·.1) ++ [kv.1] := by
  induction fs with
  | nil => simp [dictSet]
  | cons p rest ih =>
    by_cases h : p.1 = kv.1
    · simp [dictSet, h]
    · simp only [dictSet, if_neg h, List.map_cons, ih, List.mem_cons]
      by_cases hm : kv.1 ∈ rest.map (·.1)
      · simp [hm]
      · simp [hm, Ne.symm h]

theorem keys_dictSet_of_mem (fs : Fields) (kv : String × Option Val)
    (h : kv.1 ∈ fs.map (·.1)) : (dictSet fs kv).map (·.1) = fs.map (·.1) := by
  rw [keys_dictSet, if_pos h]

theorem keys_dictUpdate (fs : Fields) (entries : Fields)
    (h : ∀ p ∈ entries, p.1 ∈ fs.map (·.1)) :
    (dictUpdate fs entries).map (·.1) = fs.map (·.1) := by
  induction entries generalizing fs with
  | nil => rfl
  | cons p rest ih =>
    have hkeys := keys_dictSet_of_mem fs p (h p (List.mem_cons_self p rest))
    have h2 : dictUpdate fs (p :: rest) = dictUpdate (dictSet fs p) rest := rfl
    rw [h2, ih (dictSet fs p)
      (fun q hq => hkeys ▸ h q (List.mem_cons_of_mem _ hq)), hkeys]

theorem keys_init (cols : List String) (given : Fields) :
    (Model.init cols given).fields.map (·.1) = cols := by
  simp only [Model.init]
  rw [keys_dictUpdate]
  · simp [Function.comp_def]
  · intro p hp
    simp only [List.map_map, Function.comp_def]
    simpa using (List.mem_filter.1 hp).2

theorem getField_dictSet_self (fs : Fields) (k : String) (v : Option Val) :
    getField (dictSet fs (k, v)) k = some v := by
  induction fs with
  | nil => simp [dictSet, getField]
  | cons p rest ih =>
    by_cases h : p.1 = k
    · simp [dictSet, h, getField]
    · simp [dictSet, h, getField, Ne.symm h, ih]

theorem getField_dictSet_ne (fs : Fields) (k k' : String) (v : Option Val)
    (h : k ≠ k') : getField (dictSet fs (k', v)) k = getField fs k := by
  induction fs with
  | nil => simp [dictSet, getField, h]
  | cons p rest ih =>
    by_cases hp : p.1 = k'
    · subst hp
      simp [dictSet, getField, h]
    · by_cases hk : k = p.1 <;> simp [dictSet, hp, getField, hk, ih]

/-- `Service.match_identifier` (src/services.py): accept exactly the
strings matching the regex `^[a-zA-Z_][a-zA-Z0-9_]*$`; return the matched
identifier, or Python `None` (here `Option.none`) otherwise. -/
def matchIdentifier (s : String) : Option String :=
  match s.toList with
  | [] => none
  | c :: cs =>
    if (c.isAlpha || c = '_') && cs.all (fun d => d.isAlphanum || d = '_') then
      some s
    else
      none

/-- Python `'{0}'.format(x)` where `x` may be `None`: `None` renders as
the four characters "None". -/
def pyStrOpt : Option String → String
  | some s => s
  | none => "None"

/-- The column list of the INSERT issued by `Service.create`:
`keys = model.fields.keys()` — every key of the fields dict, in order. -/
def createInsertColumns (m : Model) : List String :=
  m.fields.map (·.1)

/-- The INSERT statement text built by `Service.create`. The key clause
maps every key through `match_identifier`; a `None` result would make the
Python `join` raise, modelled as `Option.none` overall. The table slot is
`match_identifier(table_name) or ''`. -/
def createQuery (tableName : String) (m : Model) : Option String :=
  (m.fields.mapM (fun p => matchIdentifier p.1)).map (fun ks =>
    "INSERT INTO " ++ ((matchIdentifier tableName).getD "") ++ " (" ++
      ", ".intercalate ks ++ ") VALUES (" ++
      ", ".intercalate (List.replicate m.fields.length "%s") ++ ")")

/-- The effect of `Service.create` on the record: the store-issued
`cursor.lastrowid` is assigned through the id setter (no dirty marking),
then `model.dirty = set()`. -/
def createApply (m : Model) (lastrowid : Int) : Model :=
  { m.setId (some (.int lastrowid)) with dirty := ∅ }

/-- The column list C3 claims for the INSERT, written from the spec's
words for comparison with `createInsertColumns`: declared fields with
non-null values, excluding the primary key. -/
def specCreateColumns (m : Model) : List String :=
  (m.fields.filter (fun p => p.2.isSome && p.1 ≠ "id")).map (·.1)

/-- A record prepared for insertion: columns id, name, bio with only
`name` supplied. -/
def createCounterModel : Model :=
  Model.init ["id", "name", "bio"] [("name", some (.str "Ada"))]

/-- C3 counterexample: the INSERT built by `create` lists all declared
fields — including the primary key and the null-valued `bio` — not the
non-null non-primary-key fields the claim requires. -/
theorem create_columns_include_pk_and_nulls :
    createInsertColumns createCounterModel = ["id", "name", "bio"] ∧
    specCreateColumns createCounterModel = ["name"] ∧
    createInsertColumns createCounterModel ≠ specCreateColumns createCounterModel := by
  decide

/-- C3 (amended): for every record constructed from its declared columns,
`create` issues an INSERT whose column list is all declared fields in
declaration order (including the primary key and null-valued fields); it
then assigns the store-issued id onto the record, and after create the
record's dirty set is empty. -/
theorem create_inserts_all_fields_assigns_id_clears_dirty
    (cols : List String) (given : Fields) (lastrowid : Int) :
    createInsertColumns (Model.init cols given) = cols ∧
    (createApply (Model.init cols given) lastrowid).dirty = ∅ ∧
    getField (createApply (Model.init cols given) lastrowid).fields "id" =
      some (some (.int lastrowid)) := by
  refine ⟨keys_init cols given, rfl, ?_⟩
  exact getField_dictSet_self _ "id" _

section JoinResolver

variable {α : Type} [DecidableEq α]

/-- One LEFT JOIN clause as formatted by `build_join_clause`:
`LEFT JOIN {target} ON {dependency}.{ref} = {target}.id`. -/
def joinClause (tName lName : α → String) (dependency target : α) : String :=
  "LEFT JOIN " ++ tName target ++ " ON " ++ tName dependency ++ "." ++
    lName target ++ " = " ++ tName target ++ ".id"

/-- The worklist loop of `build_join_clause` in
`Service.retrieve_filtered`. `pending` holds (record type, seen flag)
pairs; `completed` the satisfied types (seeded with the primary type).
Python appends to the list it iterates over; here the consumed prefix is
dropped and appends go to the tail. `none` is fuel exhaustion (the Python
loop runs unboundedly), `some (.error ())` the unsatisfiable-dependency
exception, `some (.ok acc)` normal completion with the ordered clauses. -/
def buildJoinLoop (deps : α → Option α) (tName lName : α → String) :
    Nat → List (α × Bool) → List α → List String →
    Option (Except Unit (List String))
  | 0, _, _, _ => none
  | _ + 1, [], _, acc => some (.ok acc)
  | fuel + 1, (target, seen) :: rest, completed, acc =>
    match deps target with
    | none => buildJoinLoop deps tName lName fuel rest completed acc
    | some dependency =>
      if target ∈ completed then
        buildJoinLoop deps tName lName fuel rest completed acc
      else if dependency ∈ completed then
        buildJoinLoop deps tName lName fuel rest (target :: completed)
          (acc ++ [joinClause tName lName dependency target])
      else if !seen then
        buildJoinLoop deps tName lName fuel
          (rest ++ [(dependency, false), (target, true)]) completed acc
      else
        some (.error ())

/-- `build_join_clause(dependencies, filters)`: seed the worklist with the
filters' record types (unseen) and the completed set with the primary
type. -/
def buildJoinClause (deps : α → Option α) (tName lName : α → String)
    (primary : α) (filters : List α) (fuel : Nat) :
    Option (Except Unit (List String)) :=
  buildJoinLoop deps tName lName fuel (filters.map (fun f => (f, false)))
    [primary] []

/-- A dependency path from a record type to the primary type through the
dependency graph. -/
inductive Reaches (deps : α → Option α) (primary : α) : α → Prop
  | refl : Reaches deps primary primary
  | step {t d : α} : deps t = some d → Reaches deps primary d →
      Reaches deps primary t

/-- Invariant of the worklist loop: if every completed type has a
dependency path to the primary type and the loop finishes without the
unsatisfiable error, then every pending type that has a dependency edge
has a dependency path to the primary type. -/
theorem buildJoinLoop_ok_reaches (deps : α → Option α)
    (tName lName : α → String) (primary : α) :
    ∀ (fuel : Nat) (pending : List (α × Bool)) (completed : List α)
      (acc js : List String),
      (∀ c ∈ completed, Reaches deps primary c) →
      buildJoinLoop deps tName lName fuel pending completed acc =
        some (.ok js) →
      ∀ t b, (t, b) ∈ pending → (deps t).isSome → Reaches deps primary t := by
  intro fuel
  induction fuel with
  | zero => intro _ _ _ _ _ h; exact absurd h (by simp [buildJoinLoop])
  | succ n ih =>
    intro pending completed acc js hcomp hrun t b htb hedge
    match pending with
    | [] => exact absurd htb (List.not_mem_nil _)
    | (target, seen) :: rest =>
      simp only [buildJoinLoop] at hrun
      split at hrun
      next hdt =>
        rcases List.mem_cons.1 htb with hhead | htail
        · simp only [Prod.mk.injEq] at hhead
          obtain ⟨rfl, rfl⟩ := hhead
          rw [hdt] at hedge
          exact absurd hedge (by simp)
        · exact ih _ _ _ _ hcomp hrun t b htail hedge
      next d hdt =>
        split at hrun
        next htc =>
          rcases List.mem_cons.1 htb with hhead | htail
          · simp only [Prod.mk.injEq] at hhead
            obtain ⟨rfl, rfl⟩ := hhead
            exact hcomp t htc
          · exact ih _ _ _ _ hcomp hrun t b htail hedge
        next htc =>
          split at hrun
          next hdc =>
            have hcomp2 : ∀ c ∈ target :: completed, Reaches deps primary c := by
              intro c hc
              rcases List.mem_cons.1 hc with rfl | hc2
              · exact .step hdt (hcomp d hdc)
              · exact hcomp c hc2
            rcases List.mem_cons.1 htb with hhead | htail
            · simp only [Prod.mk.injEq] at hhead
              obtain ⟨rfl, rfl⟩ := hhead
              exact hcomp2 t (List.mem_cons_self ..)
            · exact ih _ _ _ _ hcomp2 hrun t b htail hedge
          next hdc =>
            split at hrun
            next hseen =>
              rcases List.mem_cons.1 htb with hhead | htail
              · simp only [Prod.mk.injEq] at hhead
                obtain ⟨rfl, rfl⟩ := hhead
                exact ih _ _ _ _ hcomp hrun t true (by simp) hedge
              · exact ih _ _ _ _ hcomp hrun t b
                  (List.mem_append_left _ htail) hedge
            next hseen =>
              exact absurd hrun (by simp)

/-- The record types of the spec's join-resolution example. -/
inductive BT where
  | blog
  | post
  | comment
  deriving DecidableEq

/-- The example dependency graph {Comment: Post, Post: Blog}. -/
def btDeps : BT → Option BT
  | .comment => some .post
  | .post => some .blog
  | .blog => none

/-- Table names for the example record types. -/
def btTable : BT → String
  | .blog => "blog"
  | .post => "post"
  | .comment => "comment"

/-- Link (foreign-key column) names for the example record types. -/
def btLink : BT → String
  | .blog => "blog_id"
  | .post => "post_id"
  | .comment => "comment_id"

/-- A dependency graph with a missing edge: Comment depends on Post, but
Post has no edge and is not the primary type, so Comment has no path to
Blog. -/
def btDepsBroken : BT → Option BT
  | .comment => some .post
  | _ => none

/-- The empty dependency graph. -/
def btDepsEmpty : BT → Option BT := fun _ => none

/-- C4 counterexample: with the empty dependency graph, a filter naming
Comment (which has no dependency path to the primary type Blog) resolves
without the unsatisfiable-dependency error — the loop silently skips any
type with no dependency entry — refuting the claim that resolution fails
whenever a filter names a type with no path to the primary type. -/
theorem join_resolver_silent_on_type_without_edge :
    buildJoinClause btDepsEmpty btTable btLink BT.blog [BT.comment] 10 =
      some (.ok []) ∧
    ¬ Reaches btDepsEmpty BT.blog BT.comment := by
  refine ⟨rfl, fun h => ?_⟩
  cases h with
  | step hd _ => exact Option.noConfusion hd

/-- C4 (amended): for the dependency graph {Comment: Post, Post: Blog}
with Blog primary and filters naming Comment and Post, resolution emits
the LEFT JOIN for Post before the one for Comment. A filter naming a type
that has a dependency edge but no dependency path to the primary type
fails with the unsatisfiable-dependency error (shown on the concrete
missing-edge graph, and in general: a successful resolution implies every
filter-named type with a dependency edge has a path to the primary type);
a filter naming a type with no dependency edge at all is skipped silently. -/
theorem join_resolver_orders_joins_and_requires_paths :
    (buildJoinClause btDeps btTable btLink BT.blog [BT.comment, BT.post] 10 =
      some (.ok [joinClause btTable btLink BT.blog BT.post,
        joinClause btTable btLink BT.post BT.comment])) ∧
    (buildJoinClause btDepsBroken btTable btLink BT.blog [BT.comment] 10 =
      some (.error ())) ∧
    (∀ (α : Type) (_inst : DecidableEq α) (deps : α → Option α)
      (tN lN : α → String) (primary : α) (filters : List α) (fuel : Nat)
      (js : List String) (t : α),
      buildJoinClause deps tN lN primary filters fuel = some (.ok js) →
      t ∈ filters → (deps t).isSome → Reaches deps primary t) := by
  refine ⟨rfl, rfl, ?_⟩
  intro α _inst deps tN lN primary filters fuel js t hok htf hedge
  refine buildJoinLoop_ok_reaches deps tN lN primary fuel
    (filters.map (fun f => (f, false))) [primary] [] js ?_ hok t false ?_ hedge
  · intro c hc
    rcases List.mem_cons.1 hc with rfl | hc2
    · exact .refl
    · exact absurd hc2 (List.not_mem_nil c)
  · exact List.mem_map.2 ⟨t, htf, rfl⟩

/-- Witness for C4: instantiating the general success-implies-path part on
the concrete example graph shows Post (named by a filter, with a
dependency edge) has a dependency path to Blog. -/
theorem join_resolver_orders_joins_and_requires_paths_witness :
    Reaches btDeps BT.blog BT.post :=
  join_resolver_orders_joins_and_requires_paths.2.2 BT inferInstance btDeps
    btTable btLink BT.blog [BT.comment, BT.post] 10
    [joinClause btTable btLink BT.blog BT.post,
      joinClause btTable btLink BT.post BT.comment] BT.post rfl
    (by decide) rfl

end JoinResolver

/-- Python `s.format(a)` restricted to the `{0}` placeholder: every
occurrence of the three characters `{0}` is replaced by `a`. -/
def substPlaceholder (a : String) : List Char → List Char
  | '{' :: '0' :: '}' :: rest => a.toList ++ substPlaceholder a rest
  | c :: rest => c :: substPlaceholder a rest
  | [] => []

/-- `build_select_expression(columns, transform, alias)`: each column
renders as its transform entry or as `{0}column`, the entries are joined
with ", ", and the whole string is formatted with the alias (every `{0}`
placeholder becomes `alias.` or the empty string). -/
def buildSelectExpression (columns : List String)
    (transform : String → Option String) (aliasName : Option String) : String :=
  let a := match aliasName with
    | none => ""
    | some al => al ++ "."
  String.mk (substPlaceholder a
    (", ".intercalate
      (columns.map (fun c => (transform c).getD ("{0}" ++ c)))).toList)

/-- The default empty `select_transform` of the Model class. -/
def emptyTransform : String → Option String := fun _ => none

/-- The SELECT statement built by `Service.retrieve_by_prop`: the
soft-delete predicate is appended exactly when the record type declares a
`date_deleted` column. -/
def retrieveByPropQuery (columns : List String)
    (transform : String → Option String) (tableName propName : String) :
    String :=
  "SELECT " ++ buildSelectExpression columns transform none ++ " FROM " ++
    pyStrOpt (matchIdentifier tableName) ++ " WHERE " ++ propName ++
    " = %s\n            " ++
    (if "date_deleted" ∈ columns then "AND date_deleted IS NULL" else "") ++
    " LIMIT 1"

/-- The SELECT statement built by `Service.retrieve_for_model`:
`SELECT {columnset} FROM {table} obj WHERE id = %s` — with no soft-delete
predicate. -/
def retrieveForModelQuery (columns : List String)
    (transform : String → Option String) (tableName : String) : String :=
  "SELECT " ++ buildSelectExpression columns transform (some "obj") ++
    " FROM " ++ pyStrOpt (matchIdentifier tableName) ++ " obj WHERE id = %s"

/-- The SELECT statement built by `Service.retrieve_all_for_model` — also
with no soft-delete predicate. -/
def retrieveAllForModelQuery (columns : List String)
    (transform : String → Option String)
    (tableName linkName sortCol : String) (ascending hasBounds : Bool) :
    String :=
  "SELECT " ++ buildSelectExpression columns transform (some "obj") ++
    " FROM " ++ ((matchIdentifier tableName).getD "") ++ " obj WHERE " ++
    pyStrOpt (matchIdentifier linkName) ++ " = %s\n            ORDER BY " ++
    ((matchIdentifier sortCol).getD "id") ++ " " ++
    (if ascending then "ASC" else "DESC") ++ " " ++
    (if hasBounds then "LIMIT %s OFFSET %s" else "")

theorem toList_string_append (a b : String) :
    (a ++ b).toList = a.toList ++ b.toList := by
  simp [String.toList, String.data_append]

theorem infix_of_string_append (a b c : String) :
    b.toList <:+: ((a ++ b) ++ c).toList :=
  ⟨a.toList, c.toList, by simp [toList_string_append]⟩

/-- C5 counterexample: for a record type declaring `date_deleted`
(columns id, date_deleted), the SELECT built by `retrieve_for_model`
contains no predicate excluding soft-deleted rows. -/
theorem retrieve_for_model_lacks_soft_delete_filter :
    ¬ ("date_deleted IS NULL").toList <:+:
      (retrieveForModelQuery ["id", "date_deleted"] emptyTransform
        "thing").toList := by
  decide

/-- C5 (amended): `retrieve_by_prop` appends the not-soft-deleted
predicate to its SELECT whenever the record type declares a
`date_deleted` column, but `retrieve_for_model` and
`retrieve_all_for_model` never do — their statements contain no such
predicate even when the column is declared (shown on the concrete
record type with columns id, date_deleted). -/
theorem soft_delete_filter_only_in_retrieve_by_prop :
    (∀ (columns : List String) (transform : String → Option String)
      (tableName propName : String),
      "date_deleted" ∈ columns →
      ("date_deleted IS NULL").toList <:+:
        (retrieveByPropQuery columns transform tableName propName).toList) ∧
    (¬ ("date_deleted IS NULL").toList <:+:
      (retrieveAllForModelQuery ["id", "date_deleted"] emptyTransform
        "thing" "thing_id" "id" true false).toList) ∧
    (retrieveForModelQuery ["id", "date_deleted"] emptyTransform "thing" =
      "SELECT obj.id, obj.date_deleted FROM thing obj WHERE id = %s") := by
  refine ⟨?_, by decide, by rfl⟩
  intro columns transform tableName propName h
  unfold retrieveByPropQuery
  rw [if_pos h]
  refine List.IsInfix.trans ?_ (infix_of_string_append _ _ _)
  decide

/-- Witness for C5: the soft-delete predicate is present in the concrete
`retrieve_by_prop` SELECT for a record type with columns id,
date_deleted. -/
theorem soft_delete_filter_only_in_retrieve_by_prop_witness :
    ("date_deleted" ∈ ["id", "date_deleted"]) ∧
    ("date_deleted IS NULL").toList <:+:
      (retrieveByPropQuery ["id", "date_deleted"] emptyTransform "thing"
        "id").toList :=
  ⟨by decide,
    soft_delete_filter_only_in_retrieve_by_prop.1 ["id", "date_deleted"]
      emptyTransform "thing" "id" (by decide)⟩

/-- First pass of `sanitize` in `decode_filter_exp`:
`v.replace('%', '\\%')` — escape every LIKE percent wildcard. -/
def escapePercent (v : List Char) : List Char :=
  v.flatMap (fun c => if c = '%' then ['\\', '%'] else [c])

/-- Second pass: `.replace('_', '\\_')` — escape every LIKE underscore
wildcard. -/
def escapeUnderscore (v : List Char) : List Char :=
  v.flatMap (fun c => if c = '_' then ['\\', '_'] else [c])

/-- Third pass: `re.sub(r"[!,.'#]", '', val)` — drop punctuation. -/
def dropPunctuation (v : List Char) : List Char :=
  v.filter (fun c => c ∉ ['!', ',', '.', '\'', '#'])

/-- Fourth pass: `re.sub(r'[ -]', '_', ...)` — spaces and hyphens become
(unescaped) underscores. -/
def spacesToUnderscores (v : List Char) : List Char :=
  v.map (fun c => if c = ' ' ∨ c = '-' then '_' else c)

/-- The `sanitize` helper of `decode_filter_exp`, pass for pass. -/
def sanitize (v : List Char) : List Char :=
  spacesToUnderscores (dropPunctuation (escapeUnderscore (escapePercent v)))

/-- The per-character action `sanitize` performs, used to state that the
sanitizer rewrites each input character independently — in particular
that a user-supplied `%` or `_` is always emitted as an escaped pair. -/
def sanitizeChar (c : Char) : List Char :=
  if c = '%' then ['\\', '%']
  else if c = '_' then ['\\', '_']
  else if c ∈ ['!', ',', '.', '\'', '#'] then []
  else if c = ' ' ∨ c = '-' then ['_']
  else [c]

theorem sanitize_eq_flatMap (v : List Char) :
    sanitize v = v.flatMap sanitizeChar := by
  induction v with
  | nil => rfl
  | cons c rest ih =>
    have hstep : sanitize (c :: rest) = sanitizeChar c ++ sanitize rest := by
      simp only [sanitize, escapePercent, escapeUnderscore, dropPunctuation,
        spacesToUnderscores, List.flatMap_cons, List.flatMap_append,
        List.filter_append, List.map_append, sanitizeChar]
      by_cases h1 : c = '%'
      · simp [h1]
      · by_cases h2 : c = '_'
        · simp [h1, h2]
        · by_cases h3 : c ∈ ['!', ',', '.', '\'', '#']
          · fin_cases h3 <;> simp_all
          · by_cases h4 : c = ' ' ∨ c = '-'
            · rcases h4 with h4 | h4 <;> simp_all
            · push_neg at h4
              simp [h1, h2, (by simpa using h3 : ¬(c = '!' ∨ c = ',' ∨
                c = '.' ∨ c = '\'' ∨ c = '#')), h4.1, h4.2]
              simp_all
    rw [hstep, ih, List.flatMap_cons]

/-- The Python values that reach `decode_filter_exp`: None, booleans,
numbers, strings, and tuples of such values. -/
inductive PyVal where
  | null
  | bool (b : Bool)
  | int (n : Int)
  | str (s : String)
  | tup (l : List PyVal)

/-- The tuple branch of `decode_filter_exp` sanitizes string members and
passes other members through. -/
def sanitizePyVal : PyVal → PyVal
  | .str s => .str (String.mk (sanitize s.toList))
  | v => v

/-- Python `op.lower()`, character by character. -/
def pyLower (s : String) : String :=
  String.mk (s.toList.map Char.toLower)

/-- `decode_filter_exp(expr)`: the (op, val) lookup table for null/boolean
idioms; then the string branch with `^`/`$` anchor handling over the
sanitized value; then the tuple branch; else the pair unchanged. `none`
models the IndexError Python raises when the sanitized string is empty. -/
def decodeFilterExp (op : String) (val : PyVal) : Option (String × PyVal) :=
  let opL := pyLower op
  match opL, val with
  | "is", .null => some ("IS", .null)
  | "is not", .null => some ("IS NOT", .null)
  | "is", .bool true => some ("!=", .int 0)
  | "is", .bool false => some ("=", .int 0)
  | "is not", .bool true => some ("=", .int 0)
  | "is not", .bool false => some ("!=", .int 0)
  | _, _ =>
    match val with
    | .str s =>
      match sanitize s.toList with
      | [] => none
      | c :: cs =>
        if c = '^' ∧ (c :: cs).getLast? = some '$' then
          some ("LIKE", .str (String.mk ((c :: cs).drop 1).dropLast))
        else if c = '^' then
          some ("LIKE", .str (String.mk ((c :: cs).drop 1 ++ ['%'])))
        else if (c :: cs).getLast? = some '$' then
          some ("LIKE", .str (String.mk ('%' :: (c :: cs).dropLast)))
        else
          some ("LIKE", .str (String.mk ('%' :: (c :: cs) ++ ['%'])))
    | .tup l => some (opL, .tup (l.map sanitizePyVal))
    | _ => some (opL, val)

/-- C6: a doubly anchored string filter value compiles to an exact-match
LIKE with the anchors stripped; a start-anchored value compiles to a
prefix LIKE; and the sanitizer acts character by character, emitting
every user-supplied `%` as the escaped pair backslash-percent and every
user-supplied `_` as backslash-underscore in the bind value. -/
theorem decode_filter_anchors_and_escapes_wildcards :
    decodeFilterExp "is" (.str "^Foo$") = some ("LIKE", .str "Foo") ∧
    decodeFilterExp "is" (.str "^Foo") = some ("LIKE", .str "Foo%") ∧
    (∀ v : List Char, sanitize v = v.flatMap sanitizeChar) ∧
    sanitizeChar '%' = ['\\', '%'] ∧ sanitizeChar '_' = ['\\', '_'] :=
  ⟨by rfl, by rfl, sanitize_eq_flatMap, rfl, rfl⟩



/-- The cache operations `Service.update` and `Service.delete` issue
against the Redis store, in order. -/
inductive CacheOp where
  | setHash
  | setObject
  | deleteHash
  | deleteObject
  deriving DecidableEq

/-- Whether the cache holds the record's primary-key object entry and its
hash-index entry. -/
structure CacheEntries where
  hasObject : Bool
  hasHash : Bool
  deriving DecidableEq

/-- Effect of one cache operation on the record's cache entries. -/
def applyCacheOp (c : CacheEntries) : CacheOp → CacheEntries
  | .setHash => { c with hasHash := true }
  | .setObject => { c with hasObject := true }
  | .deleteHash => { c with hasHash := false }
  | .deleteObject => { c with hasObject := false }

/-- Effect of a cache-operation trace. -/
def applyCacheOps (c : CacheEntries) (ops : List CacheOp) : CacheEntries :=
  ops.foldl applyCacheOp c

/-- The `model[key] = value` statement as used inside the service layer:
the KeyError branches leave the record unchanged. -/
def trySetItem (m : Model) (k : String) (v : Option Val) : Model :=
  match m.setItem k v with
  | .ok m2 => m2
  | .error _ => m

/-- `Service.update(model)` (src/services.py, default arguments: stamping
date_modified enabled, no refresh): a no-op when nothing is dirty;
otherwise stamp `date_modified` when the record declares it, execute the
UPDATE, clear `dirty`, and re-set the cache hash and object entries. The
returned trace lists the cache operations issued. -/
def serviceUpdateApply (m : Model) (now : Val) : Model × List CacheOp :=
  if m.dirty.card = 0 then (m, [])
  else
    let m1 :=
      if hasField m.fields "date_modified" then
        trySetItem m "date_modified" (some now)
      else m
    ({ m1 with dirty := ∅ }, [.setHash, .setObject])

/-- `Service.delete(model)` (src/services.py): when the record declares
`date_deleted`, stamp it and delegate to `update` (the soft path, which
leaves `fields['id']` untouched); otherwise execute a hard DELETE and
clear the in-memory id. Both paths then issue `delete_hash` and
`delete_object`. -/
def serviceDeleteApply (m : Model) (now : Val) : Model × List CacheOp :=
  if hasField m.fields "date_deleted" then
    let m1 := trySetItem m "date_deleted" (some now)
    let r := serviceUpdateApply m1 now
    (r.1, r.2 ++ [.deleteHash, .deleteObject])
  else
    (m.setId none, [.deleteHash, .deleteObject])

/-- A soft-deletable record (columns id, date_deleted) with primary key 5
as loaded from a row. -/
def softDeleteModel : Model :=
  Model.init ["id", "date_deleted"] [("id", some (.int 5))]

theorem getField_trySetItem_ne (m : Model) (k : String) (v : Option Val)
    (k2 : String) (h : k2 ≠ k) :
    getField (trySetItem m k v).fields k2 = getField m.fields k2 := by
  by_cases h1 : k ∉ m.columns
  · simp [trySetItem, Model.setItem, h1]
  · by_cases h2 : k = "id"
    · by_cases h3 : "id" ∈ m.columns <;>
        simp [trySetItem, Model.setItem, h1, h2, h3]
    · simp [trySetItem, Model.setItem, h1, h2,
        getField_dictSet_ne _ _ _ _ h]

theorem getField_serviceUpdateApply_id (m : Model) (now : Val) :
    getField (serviceUpdateApply m now).1.fields "id" =
      getField m.fields "id" := by
  unfold serviceUpdateApply
  by_cases h : m.dirty.card = 0
  · simp [h]
  · by_cases h2 : hasField m.fields "date_modified" <;>
      simp [h, h2, getField_trySetItem_ne m "date_modified" (some now) "id"
        (by decide)]

/-- C7 counterexample: deleting a soft-deletable record (columns id,
date_deleted, primary key 5) leaves the in-memory primary key set to 5 —
the soft path never clears it, refuting the claim that delete clears the
id regardless of path. -/
theorem soft_delete_leaves_id_in_memory :
    getField (serviceDeleteApply softDeleteModel (.time 0)).1.fields "id" =
      some (some (.int 5)) ∧
    getField (serviceDeleteApply softDeleteModel (.time 0)).1.fields "id" ≠
      some none := by decide

/-- C7 (amended): after `delete(record)` the record's cache entries
(primary-key entry and hash entries) have been invalidated on both the
soft and hard paths, and the in-memory primary key is cleared on the
hard path only; on the soft path it is left unchanged. -/
theorem delete_invalidates_cache_clears_id_only_on_hard_path
    (m : Model) (now : Val) (c : CacheEntries) :
    (applyCacheOps c (serviceDeleteApply m now).2).hasObject = false ∧
    (applyCacheOps c (serviceDeleteApply m now).2).hasHash = false ∧
    (hasField m.fields "date_deleted" = false →
      getField (serviceDeleteApply m now).1.fields "id" = some none) ∧
    (hasField m.fields "date_deleted" = true →
      getField (serviceDeleteApply m now).1.fields "id" =
        getField m.fields "id") := by
  have hcache : ∀ ops : List CacheOp,
      applyCacheOps c (ops ++ [.deleteHash, .deleteObject]) =
        ⟨false, false⟩ := by
    intro ops
    simp [applyCacheOps, List.foldl_append, applyCacheOp]
  unfold serviceDeleteApply
  by_cases h : hasField m.fields "date_deleted"
  · refine ⟨by simp [h, hcache], by simp [h, hcache],
      by simp [h], fun _ => ?_⟩
    simp only [h, if_true]
    rw [getField_serviceUpdateApply_id,
      getField_trySetItem_ne m "date_deleted" (some now) "id" (by decide)]
  · refine ⟨by simp [h, applyCacheOps, applyCacheOp],
      by simp [h, applyCacheOps, applyCacheOp],
      fun _ => ?_, by simp [h]⟩
    simp only [h, if_false, Bool.false_eq_true]
    exact getField_dictSet_self _ "id" _

/-- Witness for C7: on the concrete soft-deletable record the cache
entries end invalidated and the id survives; on a concrete hard-delete
record (no date_deleted column) the id is cleared. -/
theorem delete_invalidates_cache_clears_id_only_on_hard_path_witness :
    ((applyCacheOps ⟨true, true⟩
        (serviceDeleteApply softDeleteModel (.time 0)).2).hasObject = false ∧
      (hasField softDeleteModel.fields "date_deleted" = true) ∧
      getField (serviceDeleteApply softDeleteModel (.time 0)).1.fields "id" =
        getField softDeleteModel.fields "id") ∧
    (hasField (Model.init ["id"] [("id", some (.int 7))]).fields
        "date_deleted" = false ∧
      getField (serviceDeleteApply (Model.init ["id"] [("id", some (.int 7))])
        (.time 0)).1.fields "id" = some none) :=
  ⟨⟨(delete_invalidates_cache_clears_id_only_on_hard_path softDeleteModel
      (.time 0) ⟨true, true⟩).1, by decide,
    (delete_invalidates_cache_clears_id_only_on_hard_path softDeleteModel
      (.time 0) ⟨true, true⟩).2.2.2 (by decide)⟩,
   ⟨by decide,
    (delete_invalidates_cache_clears_id_only_on_hard_path
      (Model.init ["id"] [("id", some (.int 7))]) (.time 0)
      ⟨true, true⟩).2.2.1 (by decide)⟩⟩

theorem interc_go_prefix (s : String) (xs : List String) :
    ∀ acc : String, ∃ r : String,
      String.intercalate.go acc s xs = acc ++ r := by
  induction xs with
  | nil => exact fun acc => ⟨"", by simp [String.intercalate.go]⟩
  | cons y ys ih =>
    intro acc
    obtain ⟨r, hr⟩ := ih (acc ++ s ++ y)
    refine ⟨s ++ y ++ r, ?_⟩
    simp only [String.intercalate.go]
    rw [← String.append_assoc, hr]
    simp [String.append_assoc]

theorem interc_head (s x : String) (xs : List String) :
    ∃ r : String, String.intercalate s (x :: xs) = x ++ r := by
  unfold String.intercalate
  exact interc_go_prefix s xs x

/-- The query text built by `Service.count`: the table name from the
record type is interpolated directly, without `match_identifier`. -/
def countQuery (tableName : String) (columns : List String) : String :=
  "SELECT COUNT(id) FROM " ++ tableName ++ " WHERE " ++
    (if "date_deleted" ∈ columns then "date_deleted IS NULL" else "1")

/-- The SET clause of `Service.update`:
`', '.join([atom] * len(keys)).format(*keys)` — the dirty column names
are interpolated without `match_identifier`. -/
def updateSetClause (keys : List String) : String :=
  String.intercalate ", " (keys.map (fun k => k ++ " = %s"))

/-- The UPDATE statement of `Service.update`: the table name is validated
(a failed match renders as "None"); the SET-clause keys are not. -/
def updateStmt (tableName : String) (keys : List String) : String :=
  "UPDATE " ++ pyStrOpt (matchIdentifier tableName) ++ " SET " ++
    updateSetClause keys ++ " WHERE id = %s"

/-- The INSERT statement of `Service.model_assoc_items`: the linking-table
name (built from the two table names) and the column names are
interpolated without `match_identifier`. -/
def modelAssocQuery (fromTable toTable : String) (columns : List String)
    (nItems nExtra : Nat) : String :=
  "INSERT INTO " ++ fromTable ++ "_" ++ toTable ++ " (" ++
    String.intercalate ", " columns ++ ") VALUES " ++
    String.intercalate ", " (List.replicate nItems
      ("(" ++ String.intercalate ", " (List.replicate (2 + nExtra) "%s") ++
        ")"))

/-- C8 counterexample: a table name rejected by `match_identifier` is
interpolated verbatim into the text of the `count` query, so not every
interpolated identifier has passed the validator. -/
theorem count_interpolates_unvalidated_table :
    matchIdentifier "users; DROP TABLE users" = none ∧
    ("users; DROP TABLE users").toList <:+:
      (countQuery "users; DROP TABLE users" ["id"]).toList := by
  constructor
  · decide
  · decide

/-- C8 (amended): not every interpolated identifier passes
`match_identifier`: `count` interpolates the table name raw,
`model_assoc_items` interpolates the linking-table name raw, and
`update` interpolates the dirty column names of its SET clause raw; by
contrast `retrieve_all_for_model` passes its table name through the
validator, so a rejected table name never reaches its statement text. -/
theorem identifier_validation_gaps :
    (∀ (t : String) (cols : List String),
      t.toList <:+: (countQuery t cols).toList) ∧
    (∀ (ft tt : String) (cols : List String) (n e : Nat),
      ft.toList <:+: (modelAssocQuery ft tt cols n e).toList) ∧
    (∀ (t k : String) (ks : List String),
      (k ++ " = %s").toList <:+: (updateStmt t (k :: ks)).toList) ∧
    (¬ ("users; DROP TABLE users").toList <:+:
      (retrieveAllForModelQuery ["id"] emptyTransform
        "users; DROP TABLE users" "x_id" "id" true false).toList) := by
  refine ⟨?_, ?_, ?_, by decide⟩
  · intro t cols
    refine ⟨("SELECT COUNT(id) FROM ").toList,
      (" WHERE " ++ (if "date_deleted" ∈ cols then "date_deleted IS NULL"
        else "1")).toList, ?_⟩
    simp [countQuery, toList_string_append, List.append_assoc]
  · intro ft tt cols n e
    refine ⟨("INSERT INTO ").toList,
      ("_" ++ tt ++ " (" ++ String.intercalate ", " cols ++ ") VALUES " ++
        String.intercalate ", " (List.replicate n
          ("(" ++ String.intercalate ", " (List.replicate (2 + e) "%s") ++
            ")"))).toList, ?_⟩
    simp [modelAssocQuery, toList_string_append, List.append_assoc]
  · intro t k ks
    obtain ⟨r, hr⟩ := interc_head ", " (k ++ " = %s")
      (ks.map (fun k2 => k2 ++ " = %s"))
    refine ⟨("UPDATE " ++ pyStrOpt (matchIdentifier t) ++ " SET ").toList,
      (r ++ " WHERE id = %s").toList, ?_⟩
    simp [updateStmt, updateSetClause, hr, toList_string_append,
      List.append_assoc]

/-- State of the hash index kept by `Redis.set_hash` for one record: the
value stored under the watched `<table>:<id>:hash` key, the set of
content hashes that currently have a reverse-pointer entry
(hash → primary-key address), and a version counter bumped on every
committed write to the watched key (what WATCH observes). -/
structure HashCache where
  hashKey : Option String
  revs : Finset String
  version : Nat
  deriving DecidableEq

/-- Where one `set_hash` caller stands in the watch/read/multi/exec
protocol. `readDone` records the watched version and the old hash read
before `multi`. `crashed` models the NameError raised when the EXEC
detects a concurrent write: the `except WatchError` handler in
f5/storage.py references the name `WatchError`, which is never imported,
so the conflicted call raises NameError instead of retrying. -/
inductive ProcPhase where
  | start
  | readDone (watched : Nat) (oldHash : Option String)
  | completed
  | crashed
  deriving DecidableEq

/-- One `set_hash` caller: its protocol phase and the `model.hash` value
it writes. -/
structure Proc where
  phase : ProcPhase
  hash : String
  deriving DecidableEq

/-- One protocol step of a `set_hash` caller against the shared cache:
`start` performs WATCH + GET; `readDone` performs the MULTI/EXEC block —
if the watched key is unchanged the transaction commits (delete the old
reverse pointer if one existed, write the hash key and the new reverse
pointer), otherwise the WatchError path is taken, which crashes with
NameError instead of retrying. -/
def stepProc (c : HashCache) (p : Proc) : HashCache × Proc :=
  match p.phase with
  | .start => (c, { p with phase := .readDone c.version c.hashKey })
  | .readDone watched oldHash =>
    if c.version = watched then
      ({ hashKey := some p.hash
         revs := insert p.hash
           (match oldHash with
            | some h => c.revs.erase h
            | none => c.revs)
         version := c.version + 1 },
       { p with phase := .completed })
    else
      (c, { p with phase := .crashed })
  | _ => (c, p)

/-- Two concurrent `set_hash` callers driven by a schedule: `true` steps
the first caller, `false` the second. -/
def runSchedule : List Bool → HashCache × Proc × Proc → HashCache × Proc × Proc
  | [], s => s
  | pick :: rest, (c, a, b) =>
    if pick then
      let r := stepProc c a
      runSchedule rest (r.1, r.2, b)
    else
      let r := stepProc c b
      runSchedule rest (r.1, a, r.2)

/-- An empty hash index and two concurrent `set_hash` callers for the
same record. -/
def twoWriterStart : HashCache × Proc × Proc :=
  (⟨none, ∅, 0⟩, ⟨.start, "h1"⟩, ⟨.start, "h2"⟩)

/-- C9 (code bug): under the interleaving where both callers WATCH+GET
before either EXECs, the first caller commits and the second caller's
EXEC detects the conflict — and then crashes with NameError (the
`except WatchError` handler names an identifier that is never imported)
instead of retrying, so not every call completes. -/
theorem conflicting_set_hash_crashes_instead_of_retrying :
    (runSchedule [true, false, true, false] twoWriterStart).2.1.phase =
      ProcPhase.completed ∧
    (runSchedule [true, false, true, false] twoWriterStart).2.2.phase =
      ProcPhase.crashed ∧
    (runSchedule [true, false, true, false] twoWriterStart).1 =
      ⟨some "h1", {"h1"}, 1⟩ := by decide

/-- Externally visible effects of a retrieval call: executing a SQL query
on the read connection, or writing a record into the cache. -/
inductive DBEffect where
  | dbExecute (query : String)
  | cacheSet
  deriving DecidableEq

/-- The SELECT built by `Service.retrieve_by_prop_list` for a non-empty
prop list: an IN subquery over the props, the (unconditional) soft-delete
predicate, and ORDER BY FIELD to preserve the caller's order. -/
def retrieveByPropListQuery (columns : List String)
    (transform : String → Option String) (tableName prop : String)
    (n : Nat) : String :=
  let subquery := String.intercalate ", " (List.replicate n "%s")
  "SELECT " ++ buildSelectExpression columns transform none ++ " FROM " ++
    pyStrOpt (matchIdentifier tableName) ++ "\n            WHERE " ++
    prop ++ " IN (" ++ subquery ++ ") AND date_deleted IS NULL" ++
    "\n            ORDER BY FIELD(" ++ prop ++ ", " ++ subquery ++ ")"

/-- `Service.retrieve_by_prop_list(prop_list, prop, use_cache)`: an empty
prop list returns `[]` before the query is built, the connection is
taken, or the cache is touched; otherwise the query runs against the
read connection (modelled by the `db` oracle) and each row becomes a
model, written through to the cache when `use_cache` is set. The second
component is the effect trace. -/
def retrieveByPropList (columns : List String)
    (transform : String → Option String) (tableName : String)
    (propList : List Val) (prop : String) (useCache : Bool)
    (db : String → List Fields) : List Model × List DBEffect :=
  if propList.isEmpty then ([], [])
  else
    let query :=
      retrieveByPropListQuery columns transform tableName prop propList.length
    let rows := db query
    (rows.map (Model.init columns),
     .dbExecute query ::
       rows.flatMap (fun _ => if useCache then [DBEffect.cacheSet] else []))

/-- `Service.retrieve_by_id_list(id_list, use_cache)` delegates to
`retrieve_by_prop_list` with prop `'id'`. -/
def retrieveByIdList (columns : List String)
    (transform : String → Option String) (tableName : String)
    (idList : List Val) (useCache : Bool) (db : String → List Fields) :
    List Model × List DBEffect :=
  retrieveByPropList columns transform tableName idList "id" useCache db

/-- C10: for every property name (and cache flag and database contents),
calling `retrieve_by_prop_list` — and hence `retrieve_by_id_list` — with
an empty list returns the empty list with an empty effect trace: no query
is executed and the cache is not touched. -/
theorem empty_prop_list_returns_empty_without_effects :
    (∀ (columns : List String) (transform : String → Option String)
      (tableName prop : String) (useCache : Bool)
      (db : String → List Fields),
      retrieveByPropList columns transform tableName [] prop useCache db =
        ([], [])) ∧
    (∀ (columns : List String) (transform : String → Option String)
      (tableName : String) (useCache : Bool) (db : String → List Fields),
      retrieveByIdList columns transform tableName [] useCache db =
        ([], [])) :=
  ⟨fun _ _ _ _ _ _ => rfl, fun _ _ _ _ _ => rfl⟩

end F5
